import Mathlib

/-!
Shallow embedding of the Pinocchio no_std vault program
(src/Pinocchio/no_std-vault/src/lib.rs): instruction dispatch, account-set
validation, payload parsing, and the Deposit/Withdraw processors, together
with a model of the host balance-transfer primitive they invoke.

Addresses and byte slices are lists of natural numbers (bytes); u64 balances
are naturals (no arithmetic in the program can overflow a u64: the only
arithmetic is done by the host transfer primitive).
-/

deriving instance DecidableEq for Except

/-- A 32-byte account address (`pinocchio::address::Address`). -/
abbrev Address := List Nat

/-- The ledger-balance-authority ("system") program's identity,
`pinocchio_system::ID` — the all-zero address. -/
def systemProgramID : Address := List.replicate 32 0

/-- One host-supplied account (`pinocchio::account::AccountView`): its
address, its lamport balance, its owning program, and whether it signed the
current transaction. -/
structure AccountView where
  address : Address
  lamports : Nat
  owner : Address
  is_signer : Bool
deriving DecidableEq, Repr

/-- Embeds `AccountView::owned_by`: the account's owning program equals `id`. -/
def AccountView.owned_by (a : AccountView) (id : Address) : Bool :=
  a.owner == id

/-- The error kinds the program raises (`pinocchio::error::ProgramError`,
restricted to the variants this program uses). -/
inductive ProgramError where
  | InvalidInstructionData
  | NotEnoughAccountKeys
  | MissingRequiredSignature
  | InvalidAccountOwner
  | IncorrectProgramId
  | InvalidAccountData
deriving DecidableEq, Repr

/-- One invocation of the host transfer primitive
(`pinocchio_system::instructions::Transfer`): the `from` account's address,
the `to` account's address, the lamport amount, and — for `invoke_signed` —
the seed byte-strings of the program-derived signer (`none` for a plain
`invoke`). -/
structure TransferCall where
  source : Address
  dest : Address
  lamports : Nat
  seeds : Option (List (List Nat))
deriving DecidableEq, Repr

/-- The host's verdict on a transfer call (the result of
`Transfer::invoke` / `invoke_signed`), supplied as an oracle since the
primitive is an external collaborator. -/
abbrev HostTransfer := TransferCall → Except ProgramError Unit

/-- The byte string `b"vault"`, the literal seed label. -/
def vaultSeedLabel : List Nat := [118, 97, 117, 108, 116]

/-- Validated account view for Deposit (`DepositAccounts`). -/
structure DepositAccounts where
  owner : AccountView
  vault : AccountView
  system_program : AccountView
deriving DecidableEq, Repr

/-- Embeds `DepositAccounts::try_from(&[AccountView])`: destructure the first three
accounts (extras ignored), then check signer, vault ownership, and the
system-program identity, first failure winning. -/
def DepositAccounts.tryFrom (accounts : List AccountView) :
    Except ProgramError DepositAccounts :=
  match accounts with
  | owner :: vault :: system_program :: _ =>
    if !owner.is_signer then
      .error .MissingRequiredSignature
    else if !vault.owned_by systemProgramID then
      .error .InvalidAccountOwner
    else if system_program.address ≠ systemProgramID then
      .error .IncorrectProgramId
    else
      .ok ⟨owner, vault, system_program⟩
  | _ => .error .NotEnoughAccountKeys

/-- Embeds `u64::from_le_bytes` on an 8-byte little-endian slice. -/
def u64FromLeBytes (bs : List Nat) : Nat :=
  bs.foldr (fun b acc => b + 256 * acc) 0

/-- Parsed Deposit payload (`DepositData`). -/
structure DepositData where
  amount : Nat
deriving DecidableEq, Repr

/-- Embeds `DepositData::try_from(&[u8])`: exactly 8 bytes, little-endian decoded,
zero rejected; both failures are `InvalidInstructionData`. -/
def DepositData.tryFrom (data : List Nat) : Except ProgramError DepositData :=
  if data.length ≠ 8 then
    .error .InvalidInstructionData
  else if u64FromLeBytes data = 0 then
    .error .InvalidInstructionData
  else
    .ok ⟨u64FromLeBytes data⟩

/-- Embeds `data.try_into()` for `[u8; 8]`: succeeds exactly on length-8 slices. -/
def sliceToArray8 (data : List Nat) : Option (List Nat) :=
  if data.length = 8 then some data else none

/-- Embeds `DepositData::try_from` with the `unwrap` made explicit: `none` models a
panic of the slice-to-array conversion, which the preceding length check is
meant to make unreachable. -/
def DepositData.tryFromChecked (data : List Nat) :
    Option (Except ProgramError DepositData) :=
  if data.length ≠ 8 then
    some (.error .InvalidInstructionData)
  else
    match sliceToArray8 data with
    | none => none
    | some arr =>
      if u64FromLeBytes arr = 0 then
        some (.error .InvalidInstructionData)
      else
        some (.ok ⟨u64FromLeBytes arr⟩)

/-- A validated Deposit instruction (`Deposit`). -/
structure Deposit where
  accounts : DepositAccounts
  data : DepositData
deriving DecidableEq, Repr

/-- Embeds `Deposit::try_from((data, accounts))`: accounts are validated first, then
the payload. -/
def Deposit.tryFrom (data : List Nat) (accounts : List AccountView) :
    Except ProgramError Deposit :=
  match DepositAccounts.tryFrom accounts with
  | .error e => .error e
  | .ok accounts =>
    match DepositData.tryFrom data with
    | .error e => .error e
    | .ok data => .ok ⟨accounts, data⟩

/-- Embeds `Deposit::process`: invoke a plain (owner-signed) transfer of `amount`
from owner to vault. Returns the program result together with the list of
transfer calls issued. -/
def Deposit.process (d : Deposit) (host : HostTransfer) :
    Except ProgramError Unit × List TransferCall :=
  let t : TransferCall :=
    ⟨d.accounts.owner.address, d.accounts.vault.address, d.data.amount, none⟩
  ((host t).bind fun _ => .ok (), [t])

/-- Validated account view for Withdraw (`WithdrawAccounts`), carrying the
bump byte used in the signing seeds. -/
structure WithdrawAccounts where
  owner : AccountView
  vault : AccountView
  system_program : AccountView
  bumps : List Nat
deriving DecidableEq, Repr

/-- Embeds `WithdrawAccounts::try_from(&[AccountView])`: the same three checks as
Deposit, then a non-zero vault balance check; the bump byte is the hardcoded
placeholder `255`. -/
def WithdrawAccounts.tryFrom (accounts : List AccountView) :
    Except ProgramError WithdrawAccounts :=
  match accounts with
  | owner :: vault :: system_program :: _ =>
    if !owner.is_signer then
      .error .MissingRequiredSignature
    else if !vault.owned_by systemProgramID then
      .error .InvalidAccountOwner
    else if system_program.address ≠ systemProgramID then
      .error .IncorrectProgramId
    else if vault.lamports = 0 then
      .error .InvalidAccountData
    else
      .ok ⟨owner, vault, system_program, [255]⟩
  | _ => .error .NotEnoughAccountKeys

/-- A validated Withdraw instruction (`Withdraw`). -/
structure Withdraw where
  accounts : WithdrawAccounts
deriving DecidableEq, Repr

/-- Embeds `Withdraw::try_from(&[AccountView])`. -/
def Withdraw.tryFrom (accounts : List AccountView) :
    Except ProgramError Withdraw :=
  match WithdrawAccounts.tryFrom accounts with
  | .error e => .error e
  | .ok accounts => .ok ⟨accounts⟩

/-- Embeds `Withdraw::process`: build the signing seeds `[b"vault", owner address,
bumps]` and invoke a signed transfer of the vault's entire balance from
vault to owner. -/
def Withdraw.process (w : Withdraw) (host : HostTransfer) :
    Except ProgramError Unit × List TransferCall :=
  let seeds := [vaultSeedLabel, w.accounts.owner.address, w.accounts.bumps]
  let t : TransferCall :=
    ⟨w.accounts.vault.address, w.accounts.owner.address,
      w.accounts.vault.lamports, some seeds⟩
  ((host t).bind fun _ => .ok (), [t])

/-- Embeds `process_instruction`: split off the first instruction byte and dispatch;
`0` to Deposit with the remaining bytes, `1` to Withdraw, anything else (or
empty data) fails with `InvalidInstructionData`. -/
def process_instruction (host : HostTransfer) (accounts : List AccountView)
    (instruction_data : List Nat) :
    Except ProgramError Unit × List TransferCall :=
  match instruction_data with
  | b :: data =>
    if b = 0 then
      match Deposit.tryFrom data accounts with
      | .ok d => d.process host
      | .error e => (.error e, [])
    else if b = 1 then
      match Withdraw.tryFrom accounts with
      | .ok w => w.process host
      | .error e => (.error e, [])
    else
      (.error .InvalidInstructionData, [])
  | [] => (.error .InvalidInstructionData, [])

/-- The error produced by dispatch, account validation, or payload parsing —
`none` when the pipeline reaches a processor's transfer call. -/
def pipelineError (accounts : List AccountView) (instruction_data : List Nat) :
    Option ProgramError :=
  match instruction_data with
  | b :: data =>
    if b = 0 then
      match Deposit.tryFrom data accounts with
      | .ok _ => none
      | .error e => some e
    else if b = 1 then
      match Withdraw.tryFrom accounts with
      | .ok _ => none
      | .error e => some e
    else
      some .InvalidInstructionData
  | [] => some .InvalidInstructionData

/-- Modelled from the spec: the host Balance Transfer Primitive (an external
collaborator, not implemented in this repository) atomically moves `amount`
from the source balance to the destination balance, failing with no effect
when the source balance is insufficient. -/
def applyTransfer (sourceBal destBal amount : Nat) : Option (Nat × Nat) :=
  if amount ≤ sourceBal then
    some (sourceBal - amount, destBal + amount)
  else
    none

/-! Concrete fixtures used to witness the theorems below. -/

/-- A sample signing owner account holding 1000000 lamports. -/
def sampleOwner : AccountView :=
  ⟨1 :: List.replicate 31 0, 1000000, systemProgramID, true⟩

/-- A sample system-owned vault account holding 500000 lamports. -/
def sampleVault : AccountView :=
  ⟨2 :: List.replicate 31 0, 500000, systemProgramID, false⟩

/-- The system program's own account entry. -/
def sampleSystem : AccountView :=
  ⟨systemProgramID, 1, systemProgramID, false⟩

/-- A well-formed three-account list. -/
def sampleAccounts : List AccountView := [sampleOwner, sampleVault, sampleSystem]

/-- A host oracle that accepts every transfer. -/
def hostOk : HostTransfer := fun _ => .ok ()

/-- The little-endian encoding of 10000. -/
def samplePayload : List Nat := [16, 39, 0, 0, 0, 0, 0, 0]

/-- The validated Deposit built from the sample fixtures. -/
def sampleDeposit : Deposit :=
  ⟨⟨sampleOwner, sampleVault, sampleSystem⟩, ⟨10000⟩⟩

/-- The validated Withdraw built from the sample fixtures. -/
def sampleWithdraw : Withdraw :=
  ⟨⟨sampleOwner, sampleVault, sampleSystem, [255]⟩⟩

/-! Helper lemmas inverting the validators on success. -/

/-- A successful payload parse returns the little-endian value, which is
non-zero, and the input had length 8. -/
theorem depositData_ok_inv {data : List Nat} {dd : DepositData}
    (h : DepositData.tryFrom data = .ok dd) :
    dd.amount = u64FromLeBytes data ∧ dd.amount ≠ 0 ∧ data.length = 8 := by
  unfold DepositData.tryFrom at h
  split_ifs at h with h1 h2 <;>
    first
      | exact Except.noConfusion h
      | (injection h with h3; subst h3; exact ⟨rfl, h2, by omega⟩)

/-- A successful Deposit validation validates both components. -/
theorem deposit_ok_inv {data : List Nat} {accounts : List AccountView}
    {d : Deposit} (h : Deposit.tryFrom data accounts = .ok d) :
    DepositAccounts.tryFrom accounts = .ok d.accounts ∧
      DepositData.tryFrom data = .ok d.data := by
  unfold Deposit.tryFrom at h
  rcases hacc : DepositAccounts.tryFrom accounts with e | acc <;> rw [hacc] at h
  · exact Except.noConfusion h
  · rcases hdat : DepositData.tryFrom data with e | dd <;> rw [hdat] at h
    · exact Except.noConfusion h
    · injection h with h3
      subst h3
      exact ⟨rfl, rfl⟩

/-- A successful Withdraw account validation pins down every field of the
view: the three accounts are the head of the list, the owner signed, the
vault is system-owned and non-empty, and the bump is the placeholder 255. -/
theorem withdrawAccounts_ok_inv {accounts : List AccountView}
    {wa : WithdrawAccounts} (h : WithdrawAccounts.tryFrom accounts = .ok wa) :
    wa.bumps = [255] ∧ wa.vault.lamports ≠ 0 ∧ wa.owner.is_signer = true ∧
      wa.vault.owned_by systemProgramID = true ∧
      wa.system_program.address = systemProgramID ∧
      ∃ rest, accounts = wa.owner :: wa.vault :: wa.system_program :: rest := by
  rcases accounts with _ | ⟨o, _ | ⟨v, _ | ⟨s, rest⟩⟩⟩ <;>
    simp only [WithdrawAccounts.tryFrom] at h
  · exact Except.noConfusion h
  · exact Except.noConfusion h
  · exact Except.noConfusion h
  · split_ifs at h with h1 h2 h3 h4 <;>
      first
        | exact Except.noConfusion h
        | (injection h with h5; subst h5;
           refine ⟨rfl, h4, by simpa using h1, by simpa using h2,
             by simpa using h3, rest, rfl⟩)

/-- A successful Withdraw validation validates the account view. -/
theorem withdraw_ok_inv {accounts : List AccountView} {w : Withdraw}
    (h : Withdraw.tryFrom accounts = .ok w) :
    WithdrawAccounts.tryFrom accounts = .ok w.accounts := by
  unfold Withdraw.tryFrom at h
  rcases hacc : WithdrawAccounts.tryFrom accounts with e | wa <;> rw [hacc] at h
  · exact Except.noConfusion h
  · injection h with h3
    subst h3
    rfl

/-- C1: for every successful Deposit validation, the processed instruction
issues exactly one transfer call moving the parsed amount (which is
positive) from the owner account to the vault account, and the host
primitive applied to any sufficient owner balance decreases the owner
balance by exactly that amount, increases the vault balance by exactly that
amount, and conserves their sum. -/
theorem C1_deposit_transfer (host : HostTransfer) (payload : List Nat)
    (accounts : List AccountView) (d : Deposit) (ob vb : Nat)
    (hok : Deposit.tryFrom payload accounts = .ok d)
    (hbal : d.data.amount ≤ ob) :
    0 < d.data.amount ∧
      (d.process host).2 =
        [⟨d.accounts.owner.address, d.accounts.vault.address, d.data.amount, none⟩] ∧
      applyTransfer ob vb d.data.amount =
        some (ob - d.data.amount, vb + d.data.amount) ∧
      (ob - d.data.amount) + (vb + d.data.amount) = ob + vb := by
  obtain ⟨-, hdat⟩ := deposit_ok_inv hok
  obtain ⟨-, hne, -⟩ := depositData_ok_inv hdat
  refine ⟨Nat.pos_of_ne_zero hne, rfl, ?_, by omega⟩
  simp [applyTransfer, hbal]

/-- Witness for C1 at the sample fixtures (amount 10000, owner balance
1000000, vault balance 0). -/
theorem C1_deposit_transfer_witness :
    0 < sampleDeposit.data.amount ∧
      (sampleDeposit.process hostOk).2 =
        [⟨sampleDeposit.accounts.owner.address, sampleDeposit.accounts.vault.address,
          sampleDeposit.data.amount, none⟩] ∧
      applyTransfer 1000000 0 sampleDeposit.data.amount =
        some (1000000 - sampleDeposit.data.amount, 0 + sampleDeposit.data.amount) ∧
      (1000000 - sampleDeposit.data.amount) + (0 + sampleDeposit.data.amount) =
        1000000 + 0 :=
  C1_deposit_transfer hostOk samplePayload sampleAccounts sampleDeposit 1000000 0
    (by decide) (by decide)

/-- C2: for every successful Withdraw validation, the processed instruction
issues exactly one transfer call moving the vault's entire current balance
(which is positive) from the vault to the owner, signed with the derived
seeds; applying the host primitive leaves the vault balance at 0 and
increases the owner balance by exactly that amount, conserving the sum. -/
theorem C2_withdraw_sweep (host : HostTransfer) (accounts : List AccountView)
    (w : Withdraw) (ob : Nat)
    (hok : Withdraw.tryFrom accounts = .ok w) :
    0 < w.accounts.vault.lamports ∧
      (w.process host).2 =
        [⟨w.accounts.vault.address, w.accounts.owner.address,
          w.accounts.vault.lamports,
          some [vaultSeedLabel, w.accounts.owner.address, w.accounts.bumps]⟩] ∧
      applyTransfer w.accounts.vault.lamports ob w.accounts.vault.lamports =
        some (0, ob + w.accounts.vault.lamports) ∧
      0 + (ob + w.accounts.vault.lamports) = w.accounts.vault.lamports + ob := by
  have hwa := withdrawAccounts_ok_inv (withdraw_ok_inv hok)
  obtain ⟨-, hne, -⟩ := hwa
  refine ⟨Nat.pos_of_ne_zero hne, rfl, ?_, by omega⟩
  simp [applyTransfer, Nat.sub_self]

/-- Witness for C2 at the sample fixtures (vault balance 500000, owner
balance 1000000). -/
theorem C2_withdraw_sweep_witness :
    0 < sampleWithdraw.accounts.vault.lamports ∧
      (sampleWithdraw.process hostOk).2 =
        [⟨sampleWithdraw.accounts.vault.address, sampleWithdraw.accounts.owner.address,
          sampleWithdraw.accounts.vault.lamports,
          some [vaultSeedLabel, sampleWithdraw.accounts.owner.address,
            sampleWithdraw.accounts.bumps]⟩] ∧
      applyTransfer sampleWithdraw.accounts.vault.lamports 1000000
          sampleWithdraw.accounts.vault.lamports =
        some (0, 1000000 + sampleWithdraw.accounts.vault.lamports) ∧
      0 + (1000000 + sampleWithdraw.accounts.vault.lamports) =
        sampleWithdraw.accounts.vault.lamports + 1000000 :=
  C2_withdraw_sweep hostOk sampleAccounts sampleWithdraw 1000000 (by decide)

/-- C3 as stated is false: a Deposit with an all-zero 8-byte payload but an
empty account list fails with `NotEnoughAccountKeys`, not
`InvalidInstructionData` — account validation runs before payload parsing. -/
theorem C3_counterexample :
    process_instruction hostOk [] (0 :: List.replicate 8 0) =
        (.error .NotEnoughAccountKeys, []) ∧
      ProgramError.NotEnoughAccountKeys ≠ ProgramError.InvalidInstructionData := by
  decide

/-- C3 (amended): a Deposit whose 8-byte payload decodes to amount 0 never
succeeds and never issues a transfer; the reported error is
`InvalidInstructionData` when the account list passes validation, and the
account-validation error otherwise (accounts are checked first). -/
theorem C3_zero_amount_rejected (host : HostTransfer) (payload : List Nat)
    (accounts : List AccountView)
    (hlen : payload.length = 8) (hzero : u64FromLeBytes payload = 0) :
    (process_instruction host accounts (0 :: payload)).2 = [] ∧
      (process_instruction host accounts (0 :: payload)).1 =
        .error (match DepositAccounts.tryFrom accounts with
          | .ok _ => ProgramError.InvalidInstructionData
          | .error e => e) := by
  have hd : DepositData.tryFrom payload = .error .InvalidInstructionData := by
    unfold DepositData.tryFrom
    simp [hlen, hzero]
  unfold process_instruction Deposit.tryFrom
  rcases hacc : DepositAccounts.tryFrom accounts with e | acc <;>
    simp [hacc, hd]

/-- Witness for the amended C3: all-zero payload with the valid sample
accounts yields `InvalidInstructionData` and no transfer. -/
theorem C3_zero_amount_rejected_witness :
    (process_instruction hostOk sampleAccounts (0 :: List.replicate 8 0)).2 = [] ∧
      (process_instruction hostOk sampleAccounts (0 :: List.replicate 8 0)).1 =
        .error (match DepositAccounts.tryFrom sampleAccounts with
          | .ok _ => ProgramError.InvalidInstructionData
          | .error e => e) :=
  C3_zero_amount_rejected hostOk (List.replicate 8 0) sampleAccounts
    (by decide) (by decide)

/-- C5: the dispatcher routes on the first instruction byte — empty data
fails with `InvalidInstructionData` and no transfer, byte 0 delegates the
remaining bytes and accounts to the Deposit path, byte 1 delegates the
accounts to the Withdraw path ignoring the remaining bytes, and any other
byte fails with `InvalidInstructionData` and no transfer. -/
theorem C5_dispatch (host : HostTransfer) (accounts : List AccountView)
    (payload payload2 : List Nat) (b : Nat) (hb0 : b ≠ 0) (hb1 : b ≠ 1) :
    process_instruction host accounts [] = (.error .InvalidInstructionData, []) ∧
      process_instruction host accounts (0 :: payload) =
        (match Deposit.tryFrom payload accounts with
          | .ok d => d.process host
          | .error e => (.error e, [])) ∧
      process_instruction host accounts (1 :: payload) =
        (match Withdraw.tryFrom accounts with
          | .ok w => w.process host
          | .error e => (.error e, [])) ∧
      process_instruction host accounts (1 :: payload) =
        process_instruction host accounts (1 :: payload2) ∧
      process_instruction host accounts (b :: payload) =
        (.error .InvalidInstructionData, []) := by
  refine ⟨rfl, rfl, rfl, rfl, ?_⟩
  simp only [process_instruction]
  rw [if_neg hb0, if_neg hb1]

/-- Witness for C5 at the sample fixtures with unknown discriminator 2. -/
theorem C5_dispatch_witness :
    process_instruction hostOk sampleAccounts [] =
        (.error .InvalidInstructionData, []) ∧
      process_instruction hostOk sampleAccounts (0 :: samplePayload) =
        (match Deposit.tryFrom samplePayload sampleAccounts with
          | .ok d => d.process hostOk
          | .error e => (.error e, [])) ∧
      process_instruction hostOk sampleAccounts (1 :: samplePayload) =
        (match Withdraw.tryFrom sampleAccounts with
          | .ok w => w.process hostOk
          | .error e => (.error e, [])) ∧
      process_instruction hostOk sampleAccounts (1 :: samplePayload) =
        process_instruction hostOk sampleAccounts (1 :: []) ∧
      process_instruction hostOk sampleAccounts (2 :: samplePayload) =
        (.error .InvalidInstructionData, []) :=
  C5_dispatch hostOk sampleAccounts samplePayload [] 2 (by decide) (by decide)

/-- C7: every Withdraw that reaches its processor carries the hardcoded
placeholder bump 255, and the single signed transfer it issues presents
exactly the seed tuple (literal label "vault", the owner's address bytes,
the bump byte 255). -/
theorem C7_withdraw_seeds (host : HostTransfer) (accounts : List AccountView)
    (w : Withdraw) (hok : Withdraw.tryFrom accounts = .ok w) :
    w.accounts.bumps = [255] ∧
      (w.process host).2 =
        [⟨w.accounts.vault.address, w.accounts.owner.address,
          w.accounts.vault.lamports,
          some [vaultSeedLabel, w.accounts.owner.address, [255]]⟩] := by
  obtain ⟨hb, -⟩ := withdrawAccounts_ok_inv (withdraw_ok_inv hok)
  exact ⟨hb, by simp [Withdraw.process, hb]⟩

/-- Witness for C7 at the sample fixtures. -/
theorem C7_withdraw_seeds_witness :
    sampleWithdraw.accounts.bumps = [255] ∧
      (sampleWithdraw.process hostOk).2 =
        [⟨sampleWithdraw.accounts.vault.address,
          sampleWithdraw.accounts.owner.address,
          sampleWithdraw.accounts.vault.lamports,
          some [vaultSeedLabel, sampleWithdraw.accounts.owner.address, [255]]⟩] :=
  C7_withdraw_seeds hostOk sampleAccounts sampleWithdraw (by decide)

/-- C8: whenever dispatch, account validation, or payload parsing fails,
`process_instruction` returns that error with an empty transfer trace — the
transfer primitive has not been invoked, so no balance was mutated. -/
theorem C8_error_before_transfer (host : HostTransfer)
    (accounts : List AccountView) (data : List Nat) (e : ProgramError)
    (h : pipelineError accounts data = some e) :
    process_instruction host accounts data = (.error e, []) := by
  rcases data with _ | ⟨b, rest⟩
  · unfold pipelineError at h
    injection h with h1
    subst h1
    rfl
  · simp only [pipelineError] at h
    simp only [process_instruction]
    by_cases hb0 : b = 0
    · subst hb0
      simp only [if_pos rfl] at h ⊢
      rcases hd : Deposit.tryFrom rest accounts with e2 | d <;>
        simp only [hd] at h ⊢
      · injection h with h1
        subst h1
        rfl
      · exact Option.noConfusion h
    · by_cases hb1 : b = 1
      · subst hb1
        rw [if_neg hb0] at h ⊢
        simp only [if_pos rfl] at h ⊢
        rcases hw : Withdraw.tryFrom accounts with e2 | w <;>
          simp only [hw] at h ⊢
        · injection h with h1
          subst h1
          rfl
        · exact Option.noConfusion h
      · rw [if_neg hb0, if_neg hb1] at h ⊢
        injection h with h1
        subst h1
        rfl

/-- Witness for C8: empty instruction data with no accounts fails at
dispatch and issues no transfer. -/
theorem C8_error_before_transfer_witness :
    pipelineError [] [] = some ProgramError.InvalidInstructionData ∧
      process_instruction hostOk [] [] =
        (.error ProgramError.InvalidInstructionData, []) :=
  ⟨by decide, C8_error_before_transfer hostOk [] [] .InvalidInstructionData (by decide)⟩

/-- C9: only the first three accounts are consumed — for every instruction,
processing with extra trailing accounts after the first three is identical
(same success or error, same transfer calls) to processing the three-entry
prefix alone. -/
theorem C9_extra_accounts_ignored (host : HostTransfer) (data : List Nat)
    (o v s : AccountView) (rest : List AccountView) :
    process_instruction host (o :: v :: s :: rest) data =
      process_instruction host [o, v, s] data := by
  rcases data with _ | ⟨b, payload⟩
  · rfl
  · rfl

/-- C10: the payload parse is total — the slice-to-array conversion behind
the `unwrap` is guarded by the exact-length-8 check, so the panic-aware
parse never panics and agrees with the plain parse on every input. -/
theorem C10_parse_never_panics (data : List Nat) :
    DepositData.tryFromChecked data = some (DepositData.tryFrom data) := by
  unfold DepositData.tryFromChecked DepositData.tryFrom sliceToArray8
  by_cases h : data.length = 8 <;> simp [h, apply_ite]

/-- C6: the Deposit payload parse succeeds exactly on 8-byte slices whose
little-endian value is non-zero, returning that value as the amount; every
other input (wrong length, or a zero decode) fails with
`InvalidInstructionData`. -/
theorem C6_payload_characterization (data : List Nat) (dd : DepositData) :
    (DepositData.tryFrom data = .ok dd ↔
      data.length = 8 ∧ dd.amount = u64FromLeBytes data ∧ dd.amount ≠ 0) ∧
      (DepositData.tryFrom data = .error .InvalidInstructionData ↔
        (data.length ≠ 8 ∨ u64FromLeBytes data = 0)) := by
  obtain ⟨a⟩ := dd
  unfold DepositData.tryFrom
  by_cases h1 : data.length = 8 <;> by_cases h2 : u64FromLeBytes data = 0 <;>
    simp [h1, h2]
  constructor
  · rintro rfl
    exact ⟨rfl, h2⟩
  · rintro ⟨h, -⟩
    exact h.symm

/-- C4: both validators run their checks in the fixed order with first
failure winning — each error kind is returned exactly on the inputs where
its check is the first to fail: fewer than three accounts, then a
non-signing first account, then a vault not owned by the system program,
then a third account whose address is not the system program's, and (for
Withdraw only) a zero vault balance. -/
theorem C4_validation_order (accounts : List AccountView) :
    (DepositAccounts.tryFrom accounts = .error .NotEnoughAccountKeys ↔
      accounts.length < 3) ∧
      (WithdrawAccounts.tryFrom accounts = .error .NotEnoughAccountKeys ↔
        accounts.length < 3) ∧
      (DepositAccounts.tryFrom accounts = .error .MissingRequiredSignature ↔
        ∃ o v s rest, accounts = o :: v :: s :: rest ∧ o.is_signer = false) ∧
      (WithdrawAccounts.tryFrom accounts = .error .MissingRequiredSignature ↔
        ∃ o v s rest, accounts = o :: v :: s :: rest ∧ o.is_signer = false) ∧
      (DepositAccounts.tryFrom accounts = .error .InvalidAccountOwner ↔
        ∃ o v s rest, accounts = o :: v :: s :: rest ∧ o.is_signer = true ∧
          v.owned_by systemProgramID = false) ∧
      (WithdrawAccounts.tryFrom accounts = .error .InvalidAccountOwner ↔
        ∃ o v s rest, accounts = o :: v :: s :: rest ∧ o.is_signer = true ∧
          v.owned_by systemProgramID = false) ∧
      (DepositAccounts.tryFrom accounts = .error .IncorrectProgramId ↔
        ∃ o v s rest, accounts = o :: v :: s :: rest ∧ o.is_signer = true ∧
          v.owned_by systemProgramID = true ∧ s.address ≠ systemProgramID) ∧
      (WithdrawAccounts.tryFrom accounts = .error .IncorrectProgramId ↔
        ∃ o v s rest, accounts = o :: v :: s :: rest ∧ o.is_signer = true ∧
          v.owned_by systemProgramID = true ∧ s.address ≠ systemProgramID) ∧
      (WithdrawAccounts.tryFrom accounts = .error .InvalidAccountData ↔
        ∃ o v s rest, accounts = o :: v :: s :: rest ∧ o.is_signer = true ∧
          v.owned_by systemProgramID = true ∧ s.address = systemProgramID ∧
          v.lamports = 0) := by
  rcases accounts with _ | ⟨o, _ | ⟨v, _ | ⟨s, rest⟩⟩⟩ <;>
    simp only [DepositAccounts.tryFrom, WithdrawAccounts.tryFrom]
  · simp
  · simp
  · simp
  · split_ifs with h1 h2 h3 h4 <;> simp_all
    · exact ⟨o, v, ⟨rfl, rfl⟩, h1, h2⟩
    · exact ⟨o, v, s, ⟨rfl, rfl, rfl⟩, h1, h2, h3⟩
    · exact ⟨o, v, s, ⟨rfl, rfl, rfl⟩, h1, h2, h3, h4⟩
